import Mathlib

/-!
Verification of the AWS Signature Version 4 request signers of this
repository.  The signers live in several near-identical files under
`supabase/functions/*/aws-signer.ts` (plus one embedded in
`list-s3-objects/index.ts` and the ones in the unnamed parts); each is
embedded here in its own namespace, sharing the cryptographic
primitives (`crypto.subtle` SHA-256 / HMAC-SHA256, modelled
executably) and the hex / UTF-8 helpers that the files repeat
verbatim.
-/

set_option maxHeartbeats 4000000
set_option maxRecDepth 100000

namespace SigV4

/-! ### SHA-256, executable model of `crypto.subtle.digest('SHA-256', _)`.
Bytes are `Nat` values below 256, 32-bit words are `Nat` values below
2^32; overflow is truncated explicitly with a mask. -/

/-- The 32-bit mask 2^32 - 1. -/
def mask32 : Nat := 4294967295

/-- Addition modulo 2^32. -/
def add32 (a b : Nat) : Nat := (a + b) &&& mask32

/-- Right rotation of a 32-bit word by `n` places. -/
def rotr (n x : Nat) : Nat := ((x >>> n) ||| (x <<< (32 - n))) &&& mask32

/-- SHA-256 choice function. -/
def ch (x y z : Nat) : Nat := (x &&& y) ^^^ ((x ^^^ mask32) &&& z)

/-- SHA-256 majority function. -/
def maj (x y z : Nat) : Nat := (x &&& y) ^^^ (x &&& z) ^^^ (y &&& z)

/-- SHA-256 big sigma 0. -/
def bsig0 (x : Nat) : Nat := rotr 2 x ^^^ rotr 13 x ^^^ rotr 22 x

/-- SHA-256 big sigma 1. -/
def bsig1 (x : Nat) : Nat := rotr 6 x ^^^ rotr 11 x ^^^ rotr 25 x

/-- SHA-256 small sigma 0. -/
def ssig0 (x : Nat) : Nat := rotr 7 x ^^^ rotr 18 x ^^^ (x >>> 3)

/-- SHA-256 small sigma 1. -/
def ssig1 (x : Nat) : Nat := rotr 17 x ^^^ rotr 19 x ^^^ (x >>> 10)

/-- The 64 SHA-256 round constants. -/
def K : List Nat := [
  1116352408,1899447441,3049323471,3921009573,961987163,1508970993,2453635748,2870763221,
  3624381080,310598401,607225278,1426881987,1925078388,2162078206,2614888103,3248222580,
  3835390401,4022224774,264347078,604807628,770255983,1249150122,1555081692,1996064986,
  2554220882,2821834349,2952996808,3210313671,3336571891,3584528711,113926993,338241895,
  666307205,773529912,1294757372,1396182291,1695183700,1986661051,2177026350,2456956037,
  2730485921,2820302411,3259730800,3345764771,3516065817,3600352804,4094571909,275423344,
  430227734,506948616,659060556,883997877,958139571,1322822218,1537002063,1747873779,
  1955562222,2024104815,2227730452,2361852424,2428436474,2756734187,3204031479,3329325298]

/-- Eight-word SHA-256 working state. -/
structure H8 where
  a : Nat
  b : Nat
  c : Nat
  d : Nat
  e : Nat
  f : Nat
  g : Nat
  h : Nat

/-- The SHA-256 initial hash value. -/
def IV : H8 :=
  ⟨1779033703,3144134277,1013904242,2773480762,1359893119,2600822924,528734635,1541459225⟩

/-- Sixteen-word sliding window of the message schedule. -/
structure W16 where
  w0 : Nat
  w1 : Nat
  w2 : Nat
  w3 : Nat
  w4 : Nat
  w5 : Nat
  w6 : Nat
  w7 : Nat
  w8 : Nat
  w9 : Nat
  w10 : Nat
  w11 : Nat
  w12 : Nat
  w13 : Nat
  w14 : Nat
  w15 : Nat

/-- Next message-schedule word from the previous sixteen. -/
def nextW (w : W16) : Nat :=
  add32 (add32 (ssig1 w.w14) w.w9) (add32 (ssig0 w.w1) w.w0)

/-- Slide the schedule window one place, appending the new word. -/
def shiftW (w : W16) (n : Nat) : W16 :=
  ⟨w.w1, w.w2, w.w3, w.w4, w.w5, w.w6, w.w7, w.w8,
   w.w9, w.w10, w.w11, w.w12, w.w13, w.w14, w.w15, n⟩

/-- Generate `n` further message-schedule words. -/
def schedGo : Nat → W16 → List Nat
  | 0, _ => []
  | Nat.succ m, w =>
    let x := nextW w
    x :: schedGo m (shiftW w x)

/-- The full 64-word message schedule of one 16-word block. -/
def schedule (ws : List Nat) : List Nat :=
  match ws with
  | [a0,a1,a2,a3,a4,a5,a6,a7,a8,a9,a10,a11,a12,a13,a14,a15] =>
    ws ++ schedGo 48 ⟨a0,a1,a2,a3,a4,a5,a6,a7,a8,a9,a10,a11,a12,a13,a14,a15⟩
  | _ => []

/-- One SHA-256 round; `kw` is the round constant already added to the
schedule word. -/
def round (st : H8) (kw : Nat) : H8 :=
  let t1 := add32 (add32 st.h (bsig1 st.e)) (add32 (ch st.e st.f st.g) kw)
  let t2 := add32 (bsig0 st.a) (maj st.a st.b st.c)
  ⟨add32 t1 t2, st.a, st.b, st.c, add32 st.d t1, st.e, st.f, st.g⟩

/-- Compress one 16-word block into the chaining state. -/
def compressBlock (hs : H8) (ws : List Nat) : H8 :=
  let kw := (K.zip (schedule ws)).map (fun p => add32 p.1 p.2)
  let f := kw.foldl round hs
  ⟨add32 hs.a f.a, add32 hs.b f.b, add32 hs.c f.c, add32 hs.d f.d,
   add32 hs.e f.e, add32 hs.f f.f, add32 hs.g f.g, add32 hs.h f.h⟩

/-- Compress a padded message, given as a list of 32-bit words whose
length is a multiple of 16. -/
def processBlocks (hs : H8) : List Nat → H8
  | w0::w1::w2::w3::w4::w5::w6::w7::w8::w9::w10::w11::w12::w13::w14::w15::rest =>
    processBlocks (compressBlock hs [w0,w1,w2,w3,w4,w5,w6,w7,w8,w9,w10,w11,w12,w13,w14,w15]) rest
  | _ => hs

/-- Pack big-endian bytes into 32-bit words, four at a time. -/
def toWords : List Nat → List Nat
  | a :: b :: c :: d :: rest =>
    ((((a <<< 8) ||| b) <<< 8 ||| c) <<< 8 ||| d) :: toWords rest
  | _ => []

/-- The 8-byte big-endian encoding of the bit length. -/
def lenBytes (n : Nat) : List Nat :=
  [(n >>> 56) &&& 255, (n >>> 48) &&& 255, (n >>> 40) &&& 255, (n >>> 32) &&& 255,
   (n >>> 24) &&& 255, (n >>> 16) &&& 255, (n >>> 8) &&& 255, n &&& 255]

/-- SHA-256 padding: a 0x80 byte, zeros to 56 mod 64, then the bit length. -/
def padMessage (msg : List Nat) : List Nat :=
  let L := msg.length
  let zeros := (64 - ((L + 9) % 64)) % 64
  msg ++ (128 :: List.replicate zeros 0) ++ lenBytes (8 * L)

/-- Big-endian bytes of one 32-bit word. -/
def wordBytes (w : Nat) : List Nat :=
  [(w >>> 24) &&& 255, (w >>> 16) &&& 255, (w >>> 8) &&& 255, w &&& 255]

/-- Serialize the final state as the 32 digest bytes. -/
def digestBytes (hs : H8) : List Nat :=
  wordBytes hs.a ++ wordBytes hs.b ++ wordBytes hs.c ++ wordBytes hs.d ++
  wordBytes hs.e ++ wordBytes hs.f ++ wordBytes hs.g ++ wordBytes hs.h

/-- SHA-256 of a byte list. -/
def sha256 (msg : List Nat) : List Nat :=
  digestBytes (processBlocks IV (toWords (padMessage msg)))

/-- UTF-8 encoding of one character, the byte production of `TextEncoder`. -/
def utf8Bytes (c : Char) : List Nat :=
  let n := c.toNat
  if n < 128 then [n]
  else if n < 2048 then [192 ||| (n >>> 6), 128 ||| (n &&& 63)]
  else if n < 65536 then
    [224 ||| (n >>> 12), 128 ||| ((n >>> 6) &&& 63), 128 ||| (n &&& 63)]
  else
    [240 ||| (n >>> 18), 128 ||| ((n >>> 12) &&& 63),
     128 ||| ((n >>> 6) &&& 63), 128 ||| (n &&& 63)]

/-- UTF-8 bytes of a string, the model of `new TextEncoder().encode(s)`. -/
def strBytes (s : String) : List Nat := (s.data.map utf8Bytes).flatten

/-- HMAC-SHA256 over byte lists, the model of `crypto.subtle.importKey`
(raw HMAC/SHA-256 key) followed by `crypto.subtle.sign('HMAC', _, _)`. -/
def hmacSha256 (key msg : List Nat) : List Nat :=
  let k0 := if 64 < key.length then sha256 key else key
  let kp := k0 ++ List.replicate (64 - k0.length) 0
  sha256 ((kp.map (fun b => b ^^^ 92)) ++ sha256 ((kp.map (fun b => b ^^^ 54)) ++ msg))

/-- Lower-case hex digits of a byte, the model of
`b.toString(16).padStart(2, '0')` that every signer file repeats. -/
def hexByte (n : Nat) : List Char :=
  let ds := Nat.toDigits 16 n
  if ds.length < 2 then List.replicate (2 - ds.length) '0' ++ ds else ds

/-- Lower-case hex string of a byte list, the `toHex` / `Array.from(...)
.map(...).join('')` helper of the signer files. -/
def toHex (bs : List Nat) : String := String.mk ((bs.map hexByte).flatten)

/-- SHA-256 of a string, rendered lower-case hex. -/
def sha256Hex (s : String) : String := toHex (sha256 (strBytes s))

/-- Membership in the lower-case hexadecimal alphabet 0-9a-f. -/
def isHexLower (c : Char) : Bool :=
  c.isDigit || (decide (97 ≤ c.toNat) && decide (c.toNat ≤ 102))

/-- Splitting accumulator for `splitOnChar`. -/
def splitOnCharAux (sep : Char) : List Char → List Char → List String
  | [], acc => [String.mk acc.reverse]
  | c :: rest, acc =>
    if c = sep then String.mk acc.reverse :: splitOnCharAux sep rest []
    else splitOnCharAux sep rest (c :: acc)

/-- Model of the JS `s.split(sep)` for a one-character separator. -/
def splitOnChar (sep : Char) (s : String) : List String :=
  splitOnCharAux sep s.data []

/-- Model of the JS `[...].join(sep)`. -/
def joinSep (sep : String) : List String → String
  | [] => ""
  | [a] => a
  | a :: rest => a ++ sep ++ joinSep sep rest

/-- Model of `s.toLowerCase()` on a header name. -/
def lowerStr (s : String) : String := String.mk (s.data.map Char.toLower)

/-- HMAC-SHA256 keyed and fed with strings via UTF-8, as the signers do. -/
def hmacStr (key : List Nat) (data : String) : List Nat :=
  hmacSha256 key (strBytes data)

/-- The signing key exactly as the spec words it, for comparison with
the code: kDate = HMAC("AWS4"+secretKey, dateStamp); kRegion =
HMAC(kDate, region); kService = HMAC(kRegion, service); kSigning =
HMAC(kService, "aws4_request"). -/
def specSigningKey (secretKey dateStamp region service : String) : List Nat :=
  hmacStr (hmacStr (hmacStr (hmacStr (strBytes ("AWS4" ++ secretKey)) dateStamp)
    region) service) "aws4_request"

/-! ### The clock.  Every signer reads `new Date()` exactly once and
formats it with `toISOString().replace(/[:-]|\.\d{3}/g, '')`; the
instant is passed to the embeddings as an explicit `DT` value. -/

/-- A UTC instant broken into the fields `Date.prototype.toISOString`
prints. -/
structure DT where
  year : Nat
  month : Nat
  day : Nat
  hour : Nat
  minute : Nat
  second : Nat
  ms : Nat

/-- Fixed-width zero-padded decimal digits, most significant first. -/
def toFixed (w n : Nat) : List Char :=
  (List.range w).map (fun i => Nat.digitChar (n / 10 ^ (w - 1 - i) % 10))

/-- Modelled platform behavior: the characters of
`Date.prototype.toISOString`, i.e. `YYYY-MM-DDTHH:MM:SS.mmmZ`. -/
def isoChars (d : DT) : List Char :=
  toFixed 4 d.year ++ '-' :: (toFixed 2 d.month ++ '-' :: (toFixed 2 d.day ++
  'T' :: (toFixed 2 d.hour ++ ':' :: (toFixed 2 d.minute ++ ':' :: (toFixed 2 d.second ++
  '.' :: (toFixed 3 d.ms ++ ['Z']))))))

/-- The global regex replacement `replace(/[:-]|\.\d{3}/g, '')` used on
the ISO string by every signer: drop each ':' and '-', and drop a '.'
together with three following digits. -/
def stripAmz : List Char → List Char
  | [] => []
  | '.' :: a :: b :: c :: rest =>
    if a.isDigit && b.isDigit && c.isDigit then stripAmz rest
    else '.' :: stripAmz (a :: b :: c :: rest)
  | c :: rest => if c = ':' ∨ c = '-' then stripAmz rest else c :: stripAmz rest

/-- `amzDate` as every signer computes it from the current instant. -/
def amzDateOf (d : DT) : String := String.mk (stripAmz (isoChars d))

/-- `dateStamp = amzDate.slice(0, 8)` (`substring(0, 8)` in one file). -/
def dateStampOf (d : DT) : String := String.mk ((stripAmz (isoChars d)).take 8)

/-- A parsed URL as the signers consume it after `new URL(url)`:
hostname, pathname, and the search string, which is either empty or
starts with '?'. -/
structure UrlObj where
  hostname : String
  pathname : String
  search : String

/-! ### String comparison.  `localeCompare`, as the sorting signer uses
it, is modelled as code-point comparison. -/

/-- Character comparison by code point. -/
def cmpc (a b : Char) : Ordering := compare a.toNat b.toNat

/-- Lexicographic comparison of character lists. -/
def cmpCharList : List Char → List Char → Ordering
  | [], [] => Ordering.eq
  | [], _ :: _ => Ordering.lt
  | _ :: _, [] => Ordering.gt
  | a :: as, b :: bs =>
    match cmpc a b with
    | Ordering.eq => cmpCharList as bs
    | o => o

/-- Model of `a.localeCompare(b)`, with negative / zero / positive
collapsed to an `Ordering`. -/
def localeCompare (a b : String) : Ordering := cmpCharList a.data b.data

/-! ### Percent-encoding, the platform `encodeURIComponent` plus the
signers' `[!'()*]` post-replacement. -/

/-- The characters `encodeURIComponent` leaves unescaped:
alphanumerics and `- _ . ! ~ * ' ( )` (code 39 is the apostrophe). -/
def uriUnescaped (c : Char) : Bool :=
  c.isAlphanum || c = '-' || c = '_' || c = '.' || c = '!' || c = '~' ||
    c = '*' || c.toNat = 39 || c = '(' || c = ')'

/-- A percent-escape of one byte, two upper-case hex digits as
`encodeURIComponent` emits them. -/
def pctByte (b : Nat) : List Char := '%' :: (hexByte b).map Char.toUpper

/-- Modelled platform behavior: `encodeURIComponent(s)` — unescaped
characters pass through, all others become percent-escapes of their
UTF-8 bytes. -/
def encodeURIComponent (s : String) : String :=
  String.mk ((s.data.map (fun c =>
    if uriUnescaped c then [c] else ((utf8Bytes c).map pctByte).flatten)).flatten)

/-- The `[!'()*]` characters the signers additionally escape. -/
def bangEtc (c : Char) : Bool :=
  c = '!' || c.toNat = 39 || c = '(' || c = ')' || c = '*'

/-- The `encodeURIComponent2` helper of generate-upload-url and
list-foundation-models: `encodeURIComponent` followed by
`replace(/[!'()*]/g, c => '%' + c.charCodeAt(0).toString(16).toUpperCase())`. -/
def encodeURIComponent2 (s : String) : String :=
  String.mk (((encodeURIComponent s).data.map (fun c =>
    if bangEtc c then '%' :: (Nat.toDigits 16 c.toNat).map Char.toUpper
    else [c])).flatten)

end SigV4

namespace UploadUrl

/-! Embedding of `supabase/functions/generate-upload-url/aws-signer.ts`
(the sorting, fully canonicalizing variant). -/

open SigV4

/-- The parsed `new URL(url)` as this signer reads it: hostname,
pathname, and `searchParams` as the ordered list of decoded key/value
pairs `URLSearchParams` iterates over. -/
structure UUrl where
  hostname : String
  pathname : String
  searchParams : List (String × String)

/-- The SignRequestOptions interface of the file, with `url` already
parsed. -/
structure Params where
  method : String
  url : UUrl
  body : String
  region : String
  service : String
  accessKeyId : String
  secretAccessKey : String

/-- Lines 54-58: `canonicalURI` — '' and '/' map to '/', otherwise each
'/'-separated segment is encoded with `encodeURIComponent2`. -/
def canonicalURI (path : String) : String :=
  if path = "" ∨ path = "/" then "/"
  else joinSep "/" ((splitOnChar '/' path).map encodeURIComponent2)

/-- The sort comparator of lines 65-70: compare encoded keys, breaking
ties by encoded values. -/
def pairCmp (a b : String × String) : Ordering :=
  if a.1 = b.1 then localeCompare a.2 b.2 else localeCompare a.1 b.1

/-- Non-positive comparator outcome: `a` may precede `b` in the sorted
array. -/
def pairLe (a b : String × String) : Prop := ¬ pairCmp a b = Ordering.gt

instance : DecidableRel pairLe := fun _ _ => instDecidableNot

end UploadUrl

namespace FoundationModels

/-! Embedding of `supabase/functions/list-foundation-models/aws-signer.ts`
(signs content-type, host, x-amz-date; no query canonicalization). -/

open SigV4

/-- Lines 54-57: `canonicalURI` — no root special case here; every
'/'-separated segment goes through `encodeURIComponent2`. -/
def canonicalURI (path : String) : String :=
  joinSep "/" ((splitOnChar '/' path).map encodeURIComponent2)

/-- Lines 34-46: the four-step signing key chain ending at
`aws4_request`. -/
def getSignatureKey (key dateStamp regionName serviceName : String) : List Nat :=
  hmacStr (hmacStr (hmacStr (hmacStr (strBytes ("AWS4" ++ key)) dateStamp)
    regionName) serviceName) "aws4_request"

/-- Lines 72-75: canonical headers and request of this variant. -/
def canonicalRequest (method pathname host body amzDate : String) : String :=
  method ++ "\n" ++ canonicalURI pathname ++ "\n" ++ "\n" ++
    ("content-type:application/json" ++ "\n" ++ "host:" ++ host ++ "\n" ++
      "x-amz-date:" ++ amzDate ++ "\n") ++ "\n" ++
    "content-type;host;x-amz-date" ++ "\n" ++ sha256Hex body

/-- Lines 79-82: the final signature of this variant. -/
def signature (method pathname host body region service secretAccessKey : String)
    (now : DT) : String :=
  toHex (hmacStr (getSignatureKey secretAccessKey (dateStampOf now) region service)
    ("AWS4-HMAC-SHA256" ++ "\n" ++ amzDateOf now ++ "\n" ++
      (dateStampOf now ++ "/" ++ region ++ "/" ++ service ++ "/aws4_request") ++ "\n" ++
      sha256Hex (canonicalRequest method pathname host body (amzDateOf now))))

end FoundationModels

namespace ListRepoFiles

/-! Embedding of `supabase/functions/list-repository-files/aws-signer.ts`
(no query sorting: `urlObj.searchParams.toString()` is used verbatim;
the returned mapping has no `Host` entry). -/

open SigV4

/-- Characters `URLSearchParams` serialization leaves unescaped
(the application/x-www-form-urlencoded set). -/
def formUnreserved (c : Char) : Bool :=
  c.isAlphanum || c = '*' || c = '-' || c = '.' || c = '_'

/-- Modelled platform behavior: one component of
`URLSearchParams.toString()` — space becomes '+', unreserved characters
pass, all else percent-escapes of UTF-8 bytes. -/
def formEncode (s : String) : String :=
  String.mk ((s.data.map (fun c =>
    if c = ' ' then ['+']
    else if formUnreserved c then [c]
    else ((utf8Bytes c).map pctByte).flatten)).flatten)

/-- Modelled platform behavior: `urlObj.searchParams.toString()`,
serializing the pairs in their stored order. -/
def searchParamsToString (ps : List (String × String)) : String :=
  joinSep "&" (ps.map (fun kv => formEncode kv.1 ++ "=" ++ formEncode kv.2))

/-- The parsed `new URL(url)` with its `searchParams` pair list. -/
structure RUrl where
  hostname : String
  pathname : String
  searchParams : List (String × String)

/-- The params record of the file, with `url` already parsed. -/
structure Params where
  method : String
  url : RUrl
  body : String
  region : String
  service : String
  accessKeyId : String
  secretAccessKey : String

/-- Line 14: `urlObj.pathname || "/"`. -/
def canonicalUri (p : Params) : String :=
  if p.url.pathname = "" then "/" else p.url.pathname

/-- Line 15. -/
def canonicalQueryString (p : Params) : String := searchParamsToString p.url.searchParams

/-- Lines 22-25. -/
def payloadHash (p : Params) : String := sha256Hex p.body

/-- Line 27. -/
def canonicalHeaders (p : Params) (now : DT) : String :=
  "host:" ++ p.url.hostname ++ "\n" ++ "x-amz-date:" ++ amzDateOf now ++ "\n"

/-- Line 28. -/
def signedHeaders : String := "host;x-amz-date"

/-- Lines 30-37. -/
def canonicalRequest (p : Params) (now : DT) : String :=
  joinSep "\n"
    [p.method, canonicalUri p, canonicalQueryString p, canonicalHeaders p now,
     signedHeaders, payloadHash p]

/-- Line 44. -/
def credentialScope (p : Params) (now : DT) : String :=
  dateStampOf now ++ "/" ++ p.region ++ "/" ++ p.service ++ "/aws4_request"

/-- Line 45. -/
def stringToSign (p : Params) (now : DT) : String :=
  joinSep "\n"
    ["AWS4-HMAC-SHA256", amzDateOf now, credentialScope p now,
     sha256Hex (canonicalRequest p now)]

/-- Lines 47-50: this file chains the four HMAC steps inline, ending at
`aws4_request`. -/
def kSigning (p : Params) (now : DT) : List Nat :=
  hmacStr (hmacStr (hmacStr (hmacStr (strBytes ("AWS4" ++ p.secretAccessKey))
    (dateStampOf now)) p.region) p.service) "aws4_request"

/-- Lines 51-55. -/
def signatureHex (p : Params) (now : DT) : String :=
  toHex (hmacStr (kSigning p now) (stringToSign p now))

/-- Line 57. -/
def authorizationHeader (p : Params) (now : DT) : String :=
  "AWS4-HMAC-SHA256 Credential=" ++ p.accessKeyId ++ "/" ++ credentialScope p now ++
    ", SignedHeaders=" ++ signedHeaders ++ ", Signature=" ++ signatureHex p now

/-- Lines 59-63: the returned mapping — Authorization, x-amz-date and
x-amz-content-sha256, but no Host entry. -/
def signRequest (p : Params) (now : DT) : List (String × String) :=
  [("Authorization", authorizationHeader p now),
   ("x-amz-date", amzDateOf now),
   ("x-amz-content-sha256", payloadHash p)]

end ListRepoFiles

namespace ListS3

/-! Embedding of the signer embedded in
`supabase/functions/list-s3-objects/index.ts` (lines 430-536): the raw
`pathname + search` is placed on the canonical-URI line and the
canonical-query-string line is always empty. -/

open SigV4

/-- The params record of the embedded signer, with `url` parsed. -/
structure Params where
  method : String
  url : UrlObj
  body : String
  region : String
  service : String
  accessKeyId : String
  secretAccessKey : String

/-- Line 445: `const path = urlObj.pathname + urlObj.search`. -/
def path (p : Params) : String := p.url.pathname ++ p.url.search

/-- Lines 488-495: the `hash` helper. -/
def hash (data : String) : String := sha256Hex data

/-- Line 450. -/
def payloadHash (p : Params) : String := hash p.body

/-- Line 452. -/
def canonicalHeaders (p : Params) (now : DT) : String :=
  "host:" ++ p.url.hostname ++ "\n" ++ "x-amz-date:" ++ amzDateOf now ++ "\n"

/-- Line 453. -/
def signedHeaders : String := "host;x-amz-date"

/-- Lines 455-462: `[method, path, '', canonicalHeaders, signedHeaders,
payloadHash].join('\n')`. -/
def canonicalRequest (p : Params) (now : DT) : String :=
  joinSep "\n"
    [p.method, path p, "", canonicalHeaders p now, signedHeaders, payloadHash p]

/-- Line 464. -/
def credentialScope (p : Params) (now : DT) : String :=
  dateStampOf now ++ "/" ++ p.region ++ "/" ++ p.service ++ "/aws4_request"

/-- Lines 465-470. -/
def stringToSign (p : Params) (now : DT) : String :=
  joinSep "\n"
    ["AWS4-HMAC-SHA256", amzDateOf now, credentialScope p now,
     hash (canonicalRequest p now)]

/-- Lines 512-524: `getSignatureKey` via `hmacBinary`, ending at
`aws4_request`. -/
def getSignatureKey (key dateStamp region service : String) : List Nat :=
  hmacStr (hmacStr (hmacStr (hmacStr (strBytes ("AWS4" ++ key)) dateStamp)
    region) service) "aws4_request"

/-- Lines 497-510 applied at line 473: the hex `hmac` of the string to
sign under the signing key. -/
def signature (p : Params) (now : DT) : String :=
  toHex (hmacStr (getSignatureKey p.secretAccessKey (dateStampOf now) p.region p.service)
    (stringToSign p now))

/-- Lines 475-479. -/
def authorizationHeader (p : Params) (now : DT) : String :=
  "AWS4-HMAC-SHA256 Credential=" ++ p.accessKeyId ++ "/" ++ credentialScope p now ++
    ", SignedHeaders=" ++ signedHeaders ++ ", Signature=" ++ signature p now

/-- Lines 481-485: the returned mapping — again without a Host entry. -/
def signRequest (p : Params) (now : DT) : List (String × String) :=
  [("Authorization", authorizationHeader p now),
   ("x-amz-date", amzDateOf now),
   ("x-amz-content-sha256", payloadHash p)]

end ListS3

namespace Part001

/-! Embedding of the signer at the head of `src/unnamed/part_001`
(canonical URI `pathname || '/'`, canonical query string
`search.substring(1)` verbatim). -/

open SigV4

/-- The params record of the file, with `url` already parsed. -/
structure Params where
  method : String
  url : UrlObj
  body : String
  region : String
  service : String
  accessKeyId : String
  secretAccessKey : String

/-- Line 22: `urlObj.pathname || '/'`. -/
def canonicalUri (p : Params) : String :=
  if p.url.pathname = "" then "/" else p.url.pathname

/-- Line 23: `urlObj.search.substring(1)`. -/
def canonicalQuerystring (p : Params) : String := String.mk (p.url.search.data.drop 1)

/-- Line 35. -/
def payloadHash (p : Params) : String := sha256Hex p.body

/-- Line 37. -/
def canonicalHeaders (p : Params) (now : DT) : String :=
  "host:" ++ p.url.hostname ++ "\n" ++ "x-amz-date:" ++ amzDateOf now ++ "\n"

/-- Line 38. -/
def signedHeaders : String := "host;x-amz-date"

/-- Line 39. -/
def canonicalRequest (p : Params) (now : DT) : String :=
  p.method ++ "\n" ++ canonicalUri p ++ "\n" ++ canonicalQuerystring p ++ "\n" ++
    canonicalHeaders p now ++ "\n" ++ signedHeaders ++ "\n" ++ payloadHash p

/-- Line 41. -/
def credentialScope (p : Params) (now : DT) : String :=
  dateStampOf now ++ "/" ++ p.region ++ "/" ++ p.service ++ "/aws4_request"

/-- Lines 42-43. -/
def stringToSign (p : Params) (now : DT) : String :=
  "AWS4-HMAC-SHA256" ++ "\n" ++ amzDateOf now ++ "\n" ++ credentialScope p now ++
    "\n" ++ sha256Hex (canonicalRequest p now)

/-- Lines 57-60: the chain ending at `aws4_request`. -/
def kSigning (p : Params) (now : DT) : List Nat :=
  hmacStr (hmacStr (hmacStr (hmacStr (strBytes ("AWS4" ++ p.secretAccessKey))
    (dateStampOf now)) p.region) p.service) "aws4_request"

/-- Line 61. -/
def signature (p : Params) (now : DT) : String :=
  toHex (hmacStr (kSigning p now) (stringToSign p now))

/-- Line 63. -/
def authorizationHeader (p : Params) (now : DT) : String :=
  "AWS4-HMAC-SHA256 Credential=" ++ p.accessKeyId ++ "/" ++ credentialScope p now ++
    ", SignedHeaders=" ++ signedHeaders ++ ", Signature=" ++ signature p now

/-- Lines 65-69: the returned mapping. -/
def signRequest (p : Params) (now : DT) : List (String × String) :=
  [("Authorization", authorizationHeader p now),
   ("x-amz-date", amzDateOf now),
   ("x-amz-content-sha256", payloadHash p)]

end Part001

namespace BedrockLLM

/-! Embedding of `supabase/functions/bedrock-llm/aws-signer.ts`.  Its
`getSignatureKey` stops after `kServiceSigned`: the returned signing
key is HMAC(kRegion, service) and the `aws4_request` chaining step of
SigV4 is absent from this file. -/

open SigV4

/-- The SignRequestParams interface of the file.  `url` is carried as
an already-parsed object (`new URL` is the platform's parser); a
supplied-but-empty url string, which is falsy in JS, corresponds to
`none` here. -/
structure Params where
  method : String
  url : Option UrlObj
  host : Option String
  path : Option String
  body : String
  region : String
  service : String
  accessKeyId : String
  secretAccessKey : String

/-- JS truthiness of an optional string: `undefined` and `''` are falsy. -/
def truthy : Option String → Bool
  | none => false
  | some s => s ≠ ""

/-- Lines 16-28: resolve finalHost and finalPath from `url`, else from
`host` and `path`, else throw. -/
def resolveTarget (p : Params) : Except String (String × String) :=
  match p.url with
  | some u => .ok (u.hostname, u.pathname ++ u.search)
  | none =>
    if truthy p.host && truthy p.path then
      .ok (p.host.getD "", p.path.getD "")
    else .error "Either url or both host and path must be provided"

/-- Lines 34-38: `bodyHashHex`, the lowercase-hex SHA-256 of the body. -/
def bodyHashHex (body : String) : String := sha256Hex body

/-- Line 40. -/
def canonicalHeaders (finalHost amzDate : String) : String :=
  "host:" ++ finalHost ++ "\n" ++ "x-amz-date:" ++ amzDate ++ "\n"

/-- Line 41. -/
def signedHeaders : String := "host;x-amz-date"

/-- Line 43. -/
def canonicalRequest (method finalPath finalHost amzDate body : String) : String :=
  method ++ "\n" ++ finalPath ++ "\n" ++ "\n" ++ canonicalHeaders finalHost amzDate ++
    "\n" ++ signedHeaders ++ "\n" ++ bodyHashHex body

/-- Line 53. -/
def credentialScope (dateStamp region service : String) : String :=
  dateStamp ++ "/" ++ region ++ "/" ++ service ++ "/aws4_request"

/-- Lines 54-59. -/
def stringToSign (amzDate scope crHashHex : String) : String :=
  "AWS4-HMAC-SHA256" ++ "\n" ++ amzDate ++ "\n" ++ scope ++ "\n" ++ crHashHex

/-- Lines 61-114: the raw bytes of the CryptoKey this file's
`getSignatureKey` returns.  The last `importKey` wraps
`kServiceSigned`, so the chain ends at the service step. -/
def getSignatureKey (key dateStamp regionName serviceName : String) : List Nat :=
  hmacStr (hmacStr (hmacStr (strBytes ("AWS4" ++ key)) dateStamp) regionName) serviceName

/-- Lines 123-130: the final lowercase-hex signature, given the
resolved host and path. -/
def signatureHex (p : Params) (now : DT) (finalHost finalPath : String) : String :=
  toHex (hmacStr
    (getSignatureKey p.secretAccessKey (dateStampOf now) p.region p.service)
    (stringToSign (amzDateOf now)
      (credentialScope (dateStampOf now) p.region p.service)
      (sha256Hex (canonicalRequest p.method finalPath finalHost (amzDateOf now) p.body))))

/-- Lines 132-136. -/
def authorizationHeader (p : Params) (now : DT) (finalHost finalPath : String) : String :=
  "AWS4-HMAC-SHA256 Credential=" ++ p.accessKeyId ++ "/" ++
    credentialScope (dateStampOf now) p.region p.service ++
    ", SignedHeaders=" ++ signedHeaders ++ ", Signature=" ++ signatureHex p now finalHost finalPath

/-- Lines 138-143: the returned header mapping. -/
def headersWith (p : Params) (now : DT) (finalHost finalPath : String) :
    List (String × String) :=
  [("Host", finalHost), ("X-Amz-Date", amzDateOf now),
   ("Authorization", authorizationHeader p now finalHost finalPath),
   ("Content-Type", "application/json")]

/-- The whole `signRequest` of bedrock-llm/aws-signer.ts; the signing
instant (`new Date()`, read once) is the explicit `now`. -/
def signRequest (p : Params) (now : DT) : Except String (List (String × String)) :=
  match resolveTarget p with
  | .error e => .error e
  | .ok hp => .ok (headersWith p now hp.1 hp.2)

end BedrockLLM

/-! ## Supporting lemmas and known-answer checks -/

namespace SigV4

theorem sha256_empty_vector :
    sha256Hex "" = "e3b0c44298fc1c149afbf4c8996fb92427ae41e4649b934ca495991b7852b855" := by
  decide

theorem sha256_abc_vector :
    sha256Hex "abc" = "ba7816bf8f01cfea414140de5dae2223b00361a396177a9cb410ff61f20015ad" := by
  decide

theorem hmac_rfc4231_vector :
    toHex (hmacStr (strBytes "Jefe") "what do ya want for nothing?") =
      "5bdcc146bf60754e6a042426089575c75a003f089d2739839dec58b964ec3843" := by
  decide

theorem amzDateOf_example :
    amzDateOf ⟨2013, 5, 24, 0, 0, 0, 0⟩ = "20130524T000000Z" := by decide

theorem cmpc_eq_iff {a b : Char} : cmpc a b = Ordering.eq ↔ a = b := by
  unfold cmpc
  rw [Nat.compare_eq_eq]
  constructor
  · intro h
    have h2 := congrArg Char.ofNat h
    rwa [Char.ofNat_toNat, Char.ofNat_toNat] at h2
  · intro h; rw [h]

theorem cmpc_swap (a b : Char) : (cmpc a b).swap = cmpc b a := Nat.compare_swap _ _

theorem cmpc_lt_trans {a b c : Char} (h1 : cmpc a b = Ordering.lt)
    (h2 : cmpc b c = Ordering.lt) : cmpc a c = Ordering.lt := by
  unfold cmpc at h1 h2 ⊢
  rw [Nat.compare_eq_lt] at h1 h2 ⊢
  omega

theorem cmpCharList_eq_iff : ∀ {as bs : List Char},
    cmpCharList as bs = Ordering.eq ↔ as = bs := by
  intro as
  induction as with
  | nil => intro bs; cases bs <;> simp [cmpCharList]
  | cons a as ih =>
    intro bs
    cases bs with
    | nil => simp [cmpCharList]
    | cons b bs =>
      simp only [cmpCharList]
      cases h : cmpc a b with
      | lt =>
        constructor
        · intro hc; cases hc
        · rintro hc
          injection hc with h1 h2
          rw [cmpc_eq_iff.mpr h1] at h; cases h
      | gt =>
        constructor
        · intro hc; cases hc
        · rintro hc
          injection hc with h1 h2
          rw [cmpc_eq_iff.mpr h1] at h; cases h
      | eq =>
        have hab : a = b := cmpc_eq_iff.mp h
        subst hab
        rw [ih]
        constructor
        · intro hc; rw [hc]
        · intro hc; injection hc

theorem cmpCharList_swap : ∀ (as bs : List Char),
    (cmpCharList as bs).swap = cmpCharList bs as := by
  intro as
  induction as with
  | nil => intro bs; cases bs <;> rfl
  | cons a as ih =>
    intro bs
    cases bs with
    | nil => rfl
    | cons b bs =>
      simp only [cmpCharList]
      cases h : cmpc a b with
      | lt =>
        have h2 : cmpc b a = Ordering.gt := by rw [← cmpc_swap, h]; rfl
        rw [h2]; rfl
      | gt =>
        have h2 : cmpc b a = Ordering.lt := by rw [← cmpc_swap, h]; rfl
        rw [h2]; rfl
      | eq =>
        have hab : a = b := cmpc_eq_iff.mp h
        subst hab
        rw [cmpc_eq_iff.mpr rfl]
        exact ih bs

theorem cmpCharList_lt_trans : ∀ {as bs cs : List Char},
    cmpCharList as bs = Ordering.lt → cmpCharList bs cs = Ordering.lt →
    cmpCharList as cs = Ordering.lt := by
  intro as
  induction as with
  | nil =>
    intro bs cs h1 h2
    cases bs with
    | nil => cases h1
    | cons b bs =>
      cases cs with
      | nil => cases h2
      | cons c cs => rfl
  | cons a as ih =>
    intro bs cs h1 h2
    cases bs with
    | nil => cases h1
    | cons b bs =>
      cases cs with
      | nil => cases h2
      | cons c cs =>
        simp only [cmpCharList] at h1 h2 ⊢
        cases hab : cmpc a b with
        | gt => rw [hab] at h1; cases h1
        | lt =>
          cases hbc : cmpc b c with
          | gt => rw [hbc] at h2; cases h2
          | lt => rw [cmpc_lt_trans hab hbc]
          | eq =>
            have h3 : b = c := cmpc_eq_iff.mp hbc
            subst h3
            rw [hab]
        | eq =>
          have h3 : a = b := cmpc_eq_iff.mp hab
          subst h3
          rw [hab] at h1
          cases hbc : cmpc a c with
          | gt => rw [hbc] at h2; cases h2
          | lt => rfl
          | eq =>
            have h4 : a = c := cmpc_eq_iff.mp hbc
            subst h4
            rw [hbc] at h2
            exact ih h1 h2

theorem localeCompare_eq_iff {a b : String} : localeCompare a b = Ordering.eq ↔ a = b := by
  unfold localeCompare
  rw [cmpCharList_eq_iff]
  constructor
  · intro h
    cases a with
    | mk da =>
      cases b with
      | mk db => exact congrArg String.mk h
  · intro h; rw [h]

theorem localeCompare_swap (a b : String) :
    (localeCompare a b).swap = localeCompare b a := cmpCharList_swap _ _

theorem localeCompare_lt_trans {a b c : String} (h1 : localeCompare a b = Ordering.lt)
    (h2 : localeCompare b c = Ordering.lt) : localeCompare a c = Ordering.lt :=
  cmpCharList_lt_trans h1 h2

theorem digitChar_isDigit {m : Nat} (h : m < 10) : (Nat.digitChar m).isDigit = true := by
  interval_cases m <;> decide

theorem toFixed_digits (w n : Nat) : ∀ c ∈ toFixed w n, c.isDigit = true := by
  intro c hc
  unfold toFixed at hc
  rw [List.mem_map] at hc
  obtain ⟨i, _, rfl⟩ := hc
  exact digitChar_isDigit (Nat.mod_lt _ (by omega))

theorem toFixed_length (w n : Nat) : (toFixed w n).length = w := by
  unfold toFixed; rw [List.length_map, List.length_range]

theorem stripAmz_cons_of_ne (c : Char) (l : List Char) (hdot : c ≠ '.') :
    stripAmz (c :: l) = if c = ':' ∨ c = '-' then stripAmz l else c :: stripAmz l := by
  rw [stripAmz.eq_def]
  split
  · next heq => cases heq
  · next a b c2 rest heq =>
    injection heq with h1 h2
    exact absurd h1 hdot
  · next c' rest heq =>
    injection heq with h1 h2
    subst h1; subst h2
    rfl

theorem stripAmz_cons_digit {c : Char} (l : List Char) (h : c.isDigit = true) :
    stripAmz (c :: l) = c :: stripAmz l := by
  have hdot : c ≠ '.' := by
    intro hc; subst hc; exact absurd h (by decide)
  rw [stripAmz_cons_of_ne c l hdot, if_neg]
  rintro (rfl | rfl) <;> exact absurd h (by decide)

theorem stripAmz_digits_append (l r : List Char) (h : ∀ c ∈ l, c.isDigit = true) :
    stripAmz (l ++ r) = l ++ stripAmz r := by
  induction l with
  | nil => rfl
  | cons c t ih =>
    rw [List.cons_append, stripAmz_cons_digit _ (h c (List.mem_cons_self c t)),
      ih (fun x hx => h x (List.mem_cons_of_mem _ hx))]
    rfl

theorem toFixed_three (n : Nat) : toFixed 3 n =
    [Nat.digitChar (n / 100 % 10), Nat.digitChar (n / 10 % 10), Nat.digitChar (n % 10)] := by
  unfold toFixed
  rw [show List.range 3 = [0, 1, 2] from by decide]
  norm_num

theorem stripAmz_dot_digits (a b c : Char) (l : List Char) (ha : a.isDigit = true)
    (hb : b.isDigit = true) (hc : c.isDigit = true) :
    stripAmz ('.' :: a :: b :: c :: l) = stripAmz l := by
  simp [stripAmz, ha, hb, hc]

theorem stripAmz_iso (d : DT) :
    stripAmz (isoChars d) =
      toFixed 4 d.year ++ (toFixed 2 d.month ++ (toFixed 2 d.day ++
        'T' :: (toFixed 2 d.hour ++ (toFixed 2 d.minute ++ (toFixed 2 d.second ++ ['Z']))))) := by
  unfold isoChars
  rw [stripAmz_digits_append _ _ (toFixed_digits 4 d.year)]
  show _ ++ stripAmz ('-' :: _) = _
  rw [show ∀ l, stripAmz ('-' :: l) = stripAmz l from fun l => rfl]
  rw [stripAmz_digits_append _ _ (toFixed_digits 2 d.month)]
  rw [show ∀ l, stripAmz ('-' :: l) = stripAmz l from fun l => rfl]
  rw [stripAmz_digits_append _ _ (toFixed_digits 2 d.day)]
  rw [show ∀ l, stripAmz ('T' :: l) = 'T' :: stripAmz l from fun l => rfl]
  rw [stripAmz_digits_append _ _ (toFixed_digits 2 d.hour)]
  rw [show ∀ l, stripAmz (':' :: l) = stripAmz l from fun l => rfl]
  rw [stripAmz_digits_append _ _ (toFixed_digits 2 d.minute)]
  rw [show ∀ l, stripAmz (':' :: l) = stripAmz l from fun l => rfl]
  rw [stripAmz_digits_append _ _ (toFixed_digits 2 d.second)]
  rw [toFixed_three]
  simp only [List.cons_append, List.nil_append]
  rw [stripAmz_dot_digits _ _ _ _ (digitChar_isDigit (Nat.mod_lt _ (by omega)))
    (digitChar_isDigit (Nat.mod_lt _ (by omega))) (digitChar_isDigit (Nat.mod_lt _ (by omega)))]
  rfl

theorem dateStamp_take (d : DT) :
    (stripAmz (isoChars d)).take 8 =
      toFixed 4 d.year ++ toFixed 2 d.month ++ toFixed 2 d.day := by
  rw [stripAmz_iso]
  have h : (toFixed 4 d.year ++ toFixed 2 d.month ++ toFixed 2 d.day).length = 8 := by
    rw [List.length_append, List.length_append, toFixed_length, toFixed_length, toFixed_length]
  rw [show toFixed 4 d.year ++ (toFixed 2 d.month ++ (toFixed 2 d.day ++
      'T' :: (toFixed 2 d.hour ++ (toFixed 2 d.minute ++ (toFixed 2 d.second ++ ['Z']))))) =
      (toFixed 4 d.year ++ toFixed 2 d.month ++ toFixed 2 d.day) ++
      ('T' :: (toFixed 2 d.hour ++ (toFixed 2 d.minute ++ (toFixed 2 d.second ++ ['Z']))))
    from by simp [List.append_assoc]]
  exact List.take_left' h

theorem hexByte_facts :
    ∀ b : Fin 256, (hexByte b.val).length = 2 ∧ (hexByte b.val).all isHexLower = true := by
  decide

theorem hexFlatten_facts (bs : List Nat) (h : ∀ b ∈ bs, b < 256) :
    ((bs.map hexByte).flatten).length = 2 * bs.length ∧
      ∀ c ∈ (bs.map hexByte).flatten, isHexLower c = true := by
  induction bs with
  | nil => exact ⟨rfl, by intro c hc; cases hc⟩
  | cons b t ih =>
    have hb := hexByte_facts ⟨b, h b (List.mem_cons_self b t)⟩
    have ht := ih (fun x hx => h x (List.mem_cons_of_mem _ hx))
    constructor
    · rw [List.map_cons, List.flatten_cons, List.length_append, hb.1, ht.1,
        List.length_cons]
      omega
    · intro c hc
      rw [List.map_cons, List.flatten_cons, List.mem_append] at hc
      rcases hc with hc | hc
      · exact List.all_eq_true.mp hb.2 c hc
      · exact ht.2 c hc

theorem wordBytes_lt (w : Nat) : ∀ b ∈ wordBytes w, b < 256 := by
  intro b hb
  have h255 : ∀ x : Nat, x &&& 255 < 256 := fun x => Nat.lt_succ_of_le Nat.and_le_right
  simp only [wordBytes, List.mem_cons, List.not_mem_nil, or_false] at hb
  rcases hb with rfl | rfl | rfl | rfl
  · exact h255 _
  · exact h255 _
  · exact h255 _
  · exact h255 _

theorem digestBytes_lt (hs : H8) : ∀ b ∈ digestBytes hs, b < 256 := by
  intro b hb
  unfold digestBytes at hb
  simp only [List.mem_append] at hb
  rcases hb with (((((((h | h) | h) | h) | h) | h) | h) | h) <;> exact wordBytes_lt _ _ h

theorem sha256_lt (msg : List Nat) : ∀ b ∈ sha256 msg, b < 256 := by
  intro b hb
  unfold sha256 at hb
  exact digestBytes_lt _ b hb

theorem sha256_len (msg : List Nat) : (sha256 msg).length = 32 := by
  unfold sha256 digestBytes
  simp [wordBytes]

theorem hmac_lt (k m : List Nat) : ∀ b ∈ hmacSha256 k m, b < 256 := by
  unfold hmacSha256
  exact sha256_lt _

theorem hmac_len (k m : List Nat) : (hmacSha256 k m).length = 32 := by
  unfold hmacSha256
  exact sha256_len _

theorem hmacHex_facts (k m : List Nat) :
    (toHex (hmacSha256 k m)).length = 64 ∧
      ∀ c ∈ (toHex (hmacSha256 k m)).data, isHexLower c = true := by
  have h := hexFlatten_facts (hmacSha256 k m) (hmac_lt k m)
  rw [hmac_len] at h
  exact h

end SigV4

namespace UploadUrl

open SigV4

theorem pairCmp_swap (a b : String × String) : (pairCmp a b).swap = pairCmp b a := by
  unfold pairCmp
  by_cases h : a.1 = b.1
  · rw [if_pos h, if_pos h.symm, localeCompare_swap]
  · rw [if_neg h, if_neg (fun hc => h hc.symm), localeCompare_swap]

theorem pairCmp_eq_iff {a b : String × String} : pairCmp a b = Ordering.eq ↔ a = b := by
  unfold pairCmp
  by_cases h : a.1 = b.1
  · rw [if_pos h, localeCompare_eq_iff]
    constructor
    · intro h2; exact Prod.ext h h2
    · intro h2; rw [h2]
  · rw [if_neg h, localeCompare_eq_iff]
    constructor
    · intro h2; exact absurd h2 h
    · intro h2; exact absurd (congrArg Prod.fst h2) h

theorem pairCmp_lt_trans {a b c : String × String} (h1 : pairCmp a b = Ordering.lt)
    (h2 : pairCmp b c = Ordering.lt) : pairCmp a c = Ordering.lt := by
  unfold pairCmp at h1 h2 ⊢
  by_cases hab : a.1 = b.1
  · rw [if_pos hab] at h1
    by_cases hbc : b.1 = c.1
    · rw [if_pos hbc] at h2
      rw [if_pos (hab.trans hbc)]
      exact localeCompare_lt_trans h1 h2
    · rw [if_neg hbc] at h2
      rw [if_neg (fun h => hbc (hab ▸ h : b.1 = c.1)), hab]
      exact h2
  · rw [if_neg hab] at h1
    by_cases hbc : b.1 = c.1
    · rw [if_neg (fun h => hab (h.trans hbc.symm)), ← hbc]
      exact h1
    · rw [if_neg hbc] at h2
      have h3 := localeCompare_lt_trans h1 h2
      have hac : ¬ a.1 = c.1 := by
        intro h
        rw [h, localeCompare_eq_iff.mpr rfl] at h3
        cases h3
      rw [if_neg hac]
      exact h3

instance : IsTotal (String × String) pairLe where
  total a b := by
    by_cases h : pairCmp a b = Ordering.gt
    · right
      intro h2
      have h3 := pairCmp_swap a b
      rw [h, h2] at h3
      cases h3
    · left; exact h

instance : IsTrans (String × String) pairLe where
  trans a b c h1 h2 := by
    unfold pairLe at h1 h2 ⊢
    cases hab : pairCmp a b with
    | gt => exact absurd hab h1
    | eq =>
      have h3 : a = b := pairCmp_eq_iff.mp hab
      subst h3
      exact h2
    | lt =>
      cases hbc : pairCmp b c with
      | gt => exact absurd hbc h2
      | eq =>
        have h3 : b = c := pairCmp_eq_iff.mp hbc
        subst h3
        intro h4; rw [hab] at h4; cases h4
      | lt =>
        intro h4
        rw [pairCmp_lt_trans hab hbc] at h4
        cases h4

instance : IsAntisymm (String × String) pairLe where
  antisymm a b h1 h2 := by
    unfold pairLe at h1 h2
    cases hab : pairCmp a b with
    | gt => exact absurd hab h1
    | eq => exact pairCmp_eq_iff.mp hab
    | lt =>
      have h3 := pairCmp_swap a b
      rw [hab] at h3
      exact absurd h3.symm h2

/-- Lines 60-72: `getCanonicalQueryString` — encode every pair, sort by
the comparator, join as `key=value` with '&'. -/
def getCanonicalQueryString (searchParams : List (String × String)) : String :=
  let params := searchParams.map (fun kv => (encodeURIComponent2 kv.1, encodeURIComponent2 kv.2))
  let sorted := List.insertionSort pairLe params
  joinSep "&" (sorted.map (fun kv => kv.1 ++ "=" ++ kv.2))

/-- Line 86. -/
def payloadHash (body : String) : String := sha256Hex body

/-- Line 88. -/
def canonicalHeaders (host ph amzDate : String) : String :=
  "host:" ++ host ++ "\n" ++ "x-amz-content-sha256:" ++ ph ++ "\n" ++
    "x-amz-date:" ++ amzDate ++ "\n"

/-- Line 89. -/
def signedHeaders : String := "host;x-amz-content-sha256;x-amz-date"

/-- Line 91. -/
def canonicalRequest (p : Params) (now : DT) : String :=
  p.method ++ "\n" ++ canonicalURI p.url.pathname ++ "\n" ++
    getCanonicalQueryString p.url.searchParams ++ "\n" ++
    canonicalHeaders p.url.hostname (payloadHash p.body) (amzDateOf now) ++ "\n" ++
    signedHeaders ++ "\n" ++ payloadHash p.body

/-- Line 94. -/
def credentialScope (dateStamp region service : String) : String :=
  dateStamp ++ "/" ++ region ++ "/" ++ service ++ "/aws4_request"

/-- Line 95. -/
def stringToSign (p : Params) (now : DT) : String :=
  "AWS4-HMAC-SHA256" ++ "\n" ++ amzDateOf now ++ "\n" ++
    credentialScope (dateStampOf now) p.region p.service ++ "\n" ++
    sha256Hex (canonicalRequest p now)

/-- Lines 34-46: the full four-step key chain, ending with the
`aws4_request` HMAC. -/
def getSignatureKey (key dateStamp regionName serviceName : String) : List Nat :=
  hmacStr (hmacStr (hmacStr (hmacStr (strBytes ("AWS4" ++ key)) dateStamp)
    regionName) serviceName) "aws4_request"

/-- Line 98. -/
def signature (p : Params) (now : DT) : String :=
  toHex (hmacStr (getSignatureKey p.secretAccessKey (dateStampOf now) p.region p.service)
    (stringToSign p now))

/-- Line 100. -/
def authorizationHeader (p : Params) (now : DT) : String :=
  "AWS4-HMAC-SHA256 Credential=" ++ p.accessKeyId ++ "/" ++
    credentialScope (dateStampOf now) p.region p.service ++
    ", SignedHeaders=" ++ signedHeaders ++ ", Signature=" ++ signature p now

/-- Lines 102-107: the returned header mapping (this variant does
return `Host`). -/
def signRequest (p : Params) (now : DT) : List (String × String) :=
  [("Host", p.url.hostname), ("X-Amz-Date", amzDateOf now),
   ("X-Amz-Content-Sha256", payloadHash p.body),
   ("Authorization", authorizationHeader p now)]

/-- Replace only the order in which the query pairs are supplied. -/
def withQuery (p : Params) (q : List (String × String)) : Params :=
  { p with url := { p.url with searchParams := q } }

theorem getCanonicalQueryString_perm {ps qs : List (String × String)}
    (h : List.Perm ps qs) : getCanonicalQueryString ps = getCanonicalQueryString qs := by
  unfold getCanonicalQueryString
  have hperm : List.Perm (List.insertionSort pairLe
      (ps.map (fun kv => (encodeURIComponent2 kv.1, encodeURIComponent2 kv.2))))
      (List.insertionSort pairLe
      (qs.map (fun kv => (encodeURIComponent2 kv.1, encodeURIComponent2 kv.2)))) :=
    (List.perm_insertionSort _ _).trans ((h.map _).trans (List.perm_insertionSort _ _).symm)
  exact congrArg (fun l => joinSep "&" (l.map (fun kv => kv.1 ++ "=" ++ kv.2)))
    (List.eq_of_perm_of_sorted hperm
      (List.sorted_insertionSort _ _) (List.sorted_insertionSort _ _))

end UploadUrl

/-! ## Claim theorems -/

/-- Claim C2, counterexample: in the list-repository-files signer (and
the identical list-s3-objects one), "host" is listed in the
SignedHeaders component of the Authorization value but no key of the
returned mapping is "host", case-insensitively or otherwise — the
mapping's keys are exactly Authorization, x-amz-date and
x-amz-content-sha256. -/
theorem c2_counterexample :
    "host" ∈ SigV4.splitOnChar ';' ListRepoFiles.signedHeaders ∧
    ListRepoFiles.authorizationHeader ⟨"GET", ⟨"h", "/", []⟩, "", "r", "s", "a", "k"⟩
        ⟨2013, 5, 24, 0, 0, 0, 0⟩ =
      "AWS4-HMAC-SHA256 Credential=" ++ "a" ++ "/" ++
        ListRepoFiles.credentialScope ⟨"GET", ⟨"h", "/", []⟩, "", "r", "s", "a", "k"⟩
          ⟨2013, 5, 24, 0, 0, 0, 0⟩ ++
        ", SignedHeaders=" ++ ListRepoFiles.signedHeaders ++ ", Signature=" ++
        ListRepoFiles.signatureHex ⟨"GET", ⟨"h", "/", []⟩, "", "r", "s", "a", "k"⟩
          ⟨2013, 5, 24, 0, 0, 0, 0⟩ ∧
    (ListRepoFiles.signRequest ⟨"GET", ⟨"h", "/", []⟩, "", "r", "s", "a", "k"⟩
        ⟨2013, 5, 24, 0, 0, 0, 0⟩).map (fun kv => SigV4.lowerStr kv.1) =
      ["authorization", "x-amz-date", "x-amz-content-sha256"] ∧
    "host" ∉ ["authorization", "x-amz-date", "x-amz-content-sha256"] :=
  ⟨by decide, rfl, by decide, by decide⟩

/-- Claim C2, amended: in the list-repository-files signer the signed
header names are exactly host and x-amz-date; of these, x-amz-date is
returned to the caller with exactly the value that was signed, while
host is signed but absent from the returned mapping (the HTTP client
supplies it from the URL). -/
theorem c2_theorem (p : ListRepoFiles.Params) (now : SigV4.DT) :
    SigV4.splitOnChar ';' ListRepoFiles.signedHeaders = ["host", "x-amz-date"] ∧
    List.lookup "x-amz-date" (ListRepoFiles.signRequest p now) = some (SigV4.amzDateOf now) ∧
    ListRepoFiles.canonicalHeaders p now =
      "host:" ++ p.url.hostname ++ "\n" ++ "x-amz-date:" ++ SigV4.amzDateOf now ++ "\n" ∧
    (ListRepoFiles.signRequest p now).map Prod.fst =
      ["Authorization", "x-amz-date", "x-amz-content-sha256"] :=
  ⟨by decide, rfl, rfl, rfl⟩

/-- Claim C3, counterexample: `canonicalURI` does not decode before
encoding, so the already-percent-encoded form of the segment "a b"
("a%20b") canonicalizes to "/a%2520b" while the decoded form
canonicalizes to "/a%20b" — double-encoding does occur, in both cited
variants. -/
theorem c3_counterexample :
    UploadUrl.canonicalURI "/a%20b" = "/a%2520b" ∧
    UploadUrl.canonicalURI "/a b" = "/a%20b" ∧
    UploadUrl.canonicalURI "/a%20b" ≠ UploadUrl.canonicalURI "/a b" ∧
    FoundationModels.canonicalURI "/a%20b" ≠ FoundationModels.canonicalURI "/a b" :=
  ⟨by decide, by decide, by decide, by decide⟩

/-- Claim C3, amended: each path segment is percent-encoded exactly
once, as supplied, with no prior decoding: every ASCII character other
than letters, digits and - . _ ~ (including ! ' ( ) *) becomes the
percent-escape of its byte, and the unreserved characters pass
through. -/
theorem c3_theorem : ∀ n : Fin 128,
    SigV4.encodeURIComponent2 (String.mk [Char.ofNat n.val]) =
      (if (Char.ofNat n.val).isAlphanum ∨ Char.ofNat n.val ∈ ['-', '.', '_', '~']
       then String.mk [Char.ofNat n.val]
       else String.mk (SigV4.pctByte n.val)) := by
  decide

/-- Claim C5, counterexample: the bedrock-llm signer does not validate
credentials — with both accessKeyId and secretAccessKey empty but a
resolvable host and path it succeeds rather than signalling an
error. -/
theorem c5_counterexample :
    (BedrockLLM.signRequest
      ⟨"GET", none, some "examplebucket.s3.amazonaws.com", some "/test.txt", "",
        "us-east-1", "s3", "", ""⟩ ⟨2013, 5, 24, 0, 0, 0, 0⟩).isOk = true := by
  decide

/-- Claim C5, amended: the bedrock-llm signer signals an error exactly
when the target cannot be resolved — no url object and no truthy
host-and-path pair — and for all other inputs it succeeds; credentials
are never checked. -/
theorem c5_theorem (p : BedrockLLM.Params) (now : SigV4.DT) :
    (∃ e, BedrockLLM.signRequest p now = Except.error e) ↔
      p.url = none ∧
        ¬(BedrockLLM.truthy p.host = true ∧ BedrockLLM.truthy p.path = true) := by
  have key : (∃ e, BedrockLLM.signRequest p now = Except.error e) ↔
      (∃ e, BedrockLLM.resolveTarget p = Except.error e) := by
    unfold BedrockLLM.signRequest
    cases hr : BedrockLLM.resolveTarget p with
    | error e =>
      constructor
      · intro _; exact ⟨e, rfl⟩
      · intro _; exact ⟨e, rfl⟩
    | ok hp =>
      constructor
      · rintro ⟨e, he⟩; exact Except.noConfusion he
      · rintro ⟨e, he⟩; exact Except.noConfusion he
  rw [key]
  unfold BedrockLLM.resolveTarget
  cases hu : p.url with
  | some u =>
    constructor
    · rintro ⟨e, he⟩; exact Except.noConfusion he
    · rintro ⟨hnone, _⟩; exact Option.noConfusion hnone
  | none =>
    by_cases ht : (BedrockLLM.truthy p.host && BedrockLLM.truthy p.path) = true
    · rw [if_pos ht]
      constructor
      · rintro ⟨e, he⟩; exact Except.noConfusion he
      · rintro ⟨_, hc⟩
        simp only [Bool.and_eq_true] at ht
        exact absurd ht hc
    · rw [if_neg ht]
      constructor
      · intro _
        refine ⟨rfl, fun hc => ht ?_⟩
        simp only [Bool.and_eq_true]
        exact hc
      · intro _
        exact ⟨"Either url or both host and path must be provided", rfl⟩

/-- Claim C6: in the cited signers the signing key is exactly the
four chained HMAC-SHA256 operations of the spec, ending with the
"aws4_request" step, and the final signature is the lowercase-hex
HMAC-SHA256 of the stringToSign under that key. -/
theorem c6_theorem (key dateStamp region service : String)
    (p : ListRepoFiles.Params) (now : SigV4.DT) :
    FoundationModels.getSignatureKey key dateStamp region service =
      SigV4.specSigningKey key dateStamp region service ∧
    UploadUrl.getSignatureKey key dateStamp region service =
      SigV4.specSigningKey key dateStamp region service ∧
    ListRepoFiles.kSigning p now =
      SigV4.specSigningKey p.secretAccessKey (SigV4.dateStampOf now) p.region p.service ∧
    ListRepoFiles.signatureHex p now =
      SigV4.toHex (SigV4.hmacStr
        (SigV4.specSigningKey p.secretAccessKey (SigV4.dateStampOf now) p.region p.service)
        (ListRepoFiles.stringToSign p now)) := by
  refine ⟨?_, ?_, ?_, ?_⟩
  · unfold FoundationModels.getSignatureKey SigV4.specSigningKey
    rfl
  · unfold UploadUrl.getSignatureKey SigV4.specSigningKey
    rfl
  · unfold ListRepoFiles.kSigning SigV4.specSigningKey
    rfl
  · unfold ListRepoFiles.signatureHex ListRepoFiles.kSigning SigV4.specSigningKey
    rfl

/-- Claim C7: for every input with empty body, the payload hash the
signer computes, signs and returns (as x-amz-content-sha256) is the
well-known SHA-256 digest of the empty string. -/
theorem c7_theorem (p : ListS3.Params) (q : BedrockLLM.Params) (now : SigV4.DT)
    (hp : p.body = "") (hq : q.body = "") :
    ListS3.signRequest p now =
      [("Authorization", ListS3.authorizationHeader p now),
       ("x-amz-date", SigV4.amzDateOf now),
       ("x-amz-content-sha256",
        "e3b0c44298fc1c149afbf4c8996fb92427ae41e4649b934ca495991b7852b855")] ∧
    BedrockLLM.bodyHashHex q.body =
      "e3b0c44298fc1c149afbf4c8996fb92427ae41e4649b934ca495991b7852b855" := by
  have hone : ListS3.payloadHash p =
      "e3b0c44298fc1c149afbf4c8996fb92427ae41e4649b934ca495991b7852b855" := by
    unfold ListS3.payloadHash ListS3.hash
    rw [hp]
    decide
  constructor
  · unfold ListS3.signRequest
    rw [hone]
  · unfold BedrockLLM.bodyHashHex
    rw [hq]
    decide

/-- Claim C7, witness at a concrete empty-body input. -/
theorem c7_witness :
    ((⟨"GET", ⟨"h", "/", ""⟩, "", "r", "s", "a", "k"⟩ : ListS3.Params).body = "" ∧
     (⟨"GET", none, some "h", some "/", "", "r", "s", "a", "k"⟩ : BedrockLLM.Params).body = "") ∧
    (ListS3.signRequest ⟨"GET", ⟨"h", "/", ""⟩, "", "r", "s", "a", "k"⟩ ⟨2013, 5, 24, 0, 0, 0, 0⟩ =
      [("Authorization", ListS3.authorizationHeader ⟨"GET", ⟨"h", "/", ""⟩, "", "r", "s", "a", "k"⟩
          ⟨2013, 5, 24, 0, 0, 0, 0⟩),
       ("x-amz-date", SigV4.amzDateOf ⟨2013, 5, 24, 0, 0, 0, 0⟩),
       ("x-amz-content-sha256",
        "e3b0c44298fc1c149afbf4c8996fb92427ae41e4649b934ca495991b7852b855")] ∧
     BedrockLLM.bodyHashHex
        (⟨"GET", none, some "h", some "/", "", "r", "s", "a", "k"⟩ : BedrockLLM.Params).body =
      "e3b0c44298fc1c149afbf4c8996fb92427ae41e4649b934ca495991b7852b855") :=
  ⟨⟨rfl, rfl⟩, c7_theorem _ _ _ rfl rfl⟩

/-- Claim C8: amzDate is the signing instant rendered as
YYYYMMDDTHHMMSSZ, dateStamp is its first eight characters YYYYMMDD,
and the one amzDate value computed from the single `now` is the value
returned in the x-amz-date header, the value inside the signed
canonical headers, and the second line of the stringToSign. -/
theorem c8_theorem (p : Part001.Params) (now : SigV4.DT) :
    SigV4.amzDateOf now = String.mk (SigV4.toFixed 4 now.year ++ (SigV4.toFixed 2 now.month ++
      (SigV4.toFixed 2 now.day ++ 'T' :: (SigV4.toFixed 2 now.hour ++
      (SigV4.toFixed 2 now.minute ++ (SigV4.toFixed 2 now.second ++ ['Z'])))))) ∧
    SigV4.dateStampOf now = String.mk (SigV4.toFixed 4 now.year ++ SigV4.toFixed 2 now.month ++
      SigV4.toFixed 2 now.day) ∧
    List.lookup "x-amz-date" (Part001.signRequest p now) = some (SigV4.amzDateOf now) ∧
    Part001.canonicalHeaders p now =
      "host:" ++ p.url.hostname ++ "\n" ++ "x-amz-date:" ++ SigV4.amzDateOf now ++ "\n" ∧
    Part001.stringToSign p now =
      "AWS4-HMAC-SHA256" ++ "\n" ++ SigV4.amzDateOf now ++ "\n" ++
        Part001.credentialScope p now ++ "\n" ++
        SigV4.sha256Hex (Part001.canonicalRequest p now) := by
  refine ⟨?_, ?_, rfl, rfl, rfl⟩
  · unfold SigV4.amzDateOf
    rw [SigV4.stripAmz_iso]
  · unfold SigV4.dateStampOf
    rw [SigV4.dateStamp_take]

/-- Claim C9: in the signer embedded in list-s3-objects/index.ts, for a
URL with non-empty query the canonical request carries the raw
pathname + "?" + query on its second line and an empty third line,
with no encoding or sorting applied. -/
theorem c9_theorem (p : ListS3.Params) (now : SigV4.DT) (q : String)
    (h : p.url.search = "?" ++ q) :
    ListS3.canonicalRequest p now =
      SigV4.joinSep "\n"
        [p.method, p.url.pathname ++ "?" ++ q, "", ListS3.canonicalHeaders p now,
         ListS3.signedHeaders, ListS3.payloadHash p] := by
  unfold ListS3.canonicalRequest ListS3.path
  rw [h, ← String.append_assoc]

/-- Claim C9, witness at a concrete query. -/
theorem c9_witness :
    (⟨"GET", ⟨"h", "/", "?x=1"⟩, "", "r", "s", "a", "k"⟩ : ListS3.Params).url.search =
      "?" ++ "x=1" ∧
    ListS3.canonicalRequest (⟨"GET", ⟨"h", "/", "?x=1"⟩, "", "r", "s", "a", "k"⟩ : ListS3.Params)
        ⟨2013, 5, 24, 0, 0, 0, 0⟩ =
      SigV4.joinSep "\n"
        ["GET", "/" ++ "?" ++ "x=1", "",
         ListS3.canonicalHeaders (⟨"GET", ⟨"h", "/", "?x=1"⟩, "", "r", "s", "a", "k"⟩ : ListS3.Params)
           ⟨2013, 5, 24, 0, 0, 0, 0⟩,
         ListS3.signedHeaders,
         ListS3.payloadHash (⟨"GET", ⟨"h", "/", "?x=1"⟩, "", "r", "s", "a", "k"⟩ : ListS3.Params)] :=
  ⟨rfl, c9_theorem _ _ _ rfl⟩


/-- Claim C1, counterexample: at AWS's documented example inputs with
the clock fixed to 2013-05-24T00:00:00Z, the bedrock-llm signer
produces an Authorization whose Signature component is
b2050685a2b943dcf403d30bce615720e921f23168f4df85c98f0f89e8217c99,
not the spec's quoted value (which, at 63 characters, is not even a
well-formed SHA-256 hex digest): the signer's key chain omits the
final aws4_request HMAC and it signs only host and x-amz-date. -/
theorem c1_counterexample :
    BedrockLLM.signRequest
      ⟨"GET", none, some "examplebucket.s3.amazonaws.com", some "/test.txt", "",
        "us-east-1", "s3", "AKIDEXAMPLE", "wJalrXUtnFEMI/K7MDENG/bPxRfiCYEXAMPLEKEY"⟩
      ⟨2013, 5, 24, 0, 0, 0, 0⟩ =
      Except.ok
        [("Host", "examplebucket.s3.amazonaws.com"),
         ("X-Amz-Date", "20130524T000000Z"),
         ("Authorization",
          "AWS4-HMAC-SHA256 Credential=AKIDEXAMPLE/20130524/us-east-1/s3/aws4_request, SignedHeaders=host;x-amz-date, Signature=b2050685a2b943dcf403d30bce615720e921f23168f4df85c98f0f89e8217c99"),
         ("Content-Type", "application/json")] ∧
    ("b2050685a2b943dcf403d30bce615720e921f23168f4df85c98f0f89e8217c99" : String) ≠
      "f0e8bdb87c964420e857bd35b5d6ed310bd44f0170aba48dd91039c6036bdb4" :=
  ⟨rfl, by decide⟩

/-- Claim C1, amended: at those inputs the Signature component the
bedrock-llm signer actually computes is
b2050685a2b943dcf403d30bce615720e921f23168f4df85c98f0f89e8217c99. -/
theorem c1_theorem :
    BedrockLLM.signatureHex
      ⟨"GET", none, some "examplebucket.s3.amazonaws.com", some "/test.txt", "",
        "us-east-1", "s3", "AKIDEXAMPLE", "wJalrXUtnFEMI/K7MDENG/bPxRfiCYEXAMPLEKEY"⟩
      ⟨2013, 5, 24, 0, 0, 0, 0⟩ "examplebucket.s3.amazonaws.com" "/test.txt" =
      "b2050685a2b943dcf403d30bce615720e921f23168f4df85c98f0f89e8217c99" := by
  decide

/-- Claim C4, counterexample: the list-repository-files signer
serializes the query in the supplied order, so supplying the same
pairs in a different order changes the output (the signatures
differ). -/
theorem c4_counterexample :
    List.Perm ([("b", "1"), ("a", "2")] : List (String × String)) [("a", "2"), ("b", "1")] ∧
    ListRepoFiles.signRequest ⟨"GET", ⟨"h", "/", [("b", "1"), ("a", "2")]⟩, "", "r", "s", "a", "k"⟩
        ⟨2013, 5, 24, 0, 0, 0, 0⟩ ≠
      ListRepoFiles.signRequest ⟨"GET", ⟨"h", "/", [("a", "2"), ("b", "1")]⟩, "", "r", "s", "a", "k"⟩
        ⟨2013, 5, 24, 0, 0, 0, 0⟩ :=
  ⟨by decide, by decide⟩

/-- Claim C4, amended for the generate-upload-url signer (the variant
whose canonical query string the claim describes): permuting the
supplied query pairs leaves the whole output unchanged, because the
canonical query string percent-encodes each key and value and sorts
the encoded pairs by key then value, keeping repeated keys; an empty
query canonicalizes to the empty string. -/
theorem c4_theorem (p : UploadUrl.Params) (q : List (String × String))
    (h : List.Perm q p.url.searchParams) (now : SigV4.DT) :
    UploadUrl.signRequest (UploadUrl.withQuery p q) now = UploadUrl.signRequest p now ∧
    UploadUrl.getCanonicalQueryString [] = "" := by
  constructor
  · have hq : UploadUrl.getCanonicalQueryString q =
        UploadUrl.getCanonicalQueryString p.url.searchParams :=
      UploadUrl.getCanonicalQueryString_perm h
    unfold UploadUrl.signRequest UploadUrl.authorizationHeader UploadUrl.signature
      UploadUrl.stringToSign UploadUrl.canonicalRequest UploadUrl.withQuery
    dsimp only
    rw [hq]
  · rfl

/-- Claim C4, witness at a concrete two-pair query permutation. -/
theorem c4_witness :
    List.Perm ([("b", "1"), ("a", "2")] : List (String × String))
      ((⟨"GET", ⟨"h", "/", [("a", "2"), ("b", "1")]⟩, "", "r", "s", "a", "k"⟩ :
        UploadUrl.Params).url.searchParams) ∧
    (UploadUrl.signRequest
        (UploadUrl.withQuery ⟨"GET", ⟨"h", "/", [("a", "2"), ("b", "1")]⟩, "", "r", "s", "a", "k"⟩
          [("b", "1"), ("a", "2")]) ⟨2013, 5, 24, 0, 0, 0, 0⟩ =
      UploadUrl.signRequest ⟨"GET", ⟨"h", "/", [("a", "2"), ("b", "1")]⟩, "", "r", "s", "a", "k"⟩
        ⟨2013, 5, 24, 0, 0, 0, 0⟩ ∧
     UploadUrl.getCanonicalQueryString [] = "") :=
  ⟨by decide, c4_theorem _ _ (by decide) _⟩

/-- Claim C10: whenever the bedrock-llm signer succeeds, the returned
Authorization value ends in Signature= followed by the signature,
which is exactly 64 characters drawn from the lowercase hex alphabet
0-9a-f. -/
theorem c10_theorem (p : BedrockLLM.Params) (now : SigV4.DT) (hs : List (String × String))
    (h : BedrockLLM.signRequest p now = Except.ok hs) :
    ∃ fh fp, hs = BedrockLLM.headersWith p now fh fp ∧
      List.lookup "Authorization" hs = some (BedrockLLM.authorizationHeader p now fh fp) ∧
      BedrockLLM.authorizationHeader p now fh fp =
        "AWS4-HMAC-SHA256 Credential=" ++ p.accessKeyId ++ "/" ++
          BedrockLLM.credentialScope (SigV4.dateStampOf now) p.region p.service ++
          ", SignedHeaders=" ++ BedrockLLM.signedHeaders ++ ", Signature=" ++
          BedrockLLM.signatureHex p now fh fp ∧
      (BedrockLLM.signatureHex p now fh fp).length = 64 ∧
      ∀ c ∈ (BedrockLLM.signatureHex p now fh fp).data, SigV4.isHexLower c = true := by
  unfold BedrockLLM.signRequest at h
  cases hr : BedrockLLM.resolveTarget p with
  | error e =>
    rw [hr] at h
    exact Except.noConfusion h
  | ok hp =>
    rw [hr] at h
    injection h with h2
    refine ⟨hp.1, hp.2, h2.symm, ?_, rfl, ?_, ?_⟩
    · rw [← h2]
      rfl
    · exact (SigV4.hmacHex_facts _ _).1
    · exact (SigV4.hmacHex_facts _ _).2

/-- Claim C10, witness at a concrete successful input. -/
theorem c10_witness :
    BedrockLLM.signRequest
        (⟨"G", none, some "h", some "/", "", "r", "s", "a", "k"⟩ : BedrockLLM.Params)
        ⟨2013, 5, 24, 0, 0, 0, 0⟩ =
      Except.ok (BedrockLLM.headersWith
        (⟨"G", none, some "h", some "/", "", "r", "s", "a", "k"⟩ : BedrockLLM.Params)
        ⟨2013, 5, 24, 0, 0, 0, 0⟩ "h" "/") ∧
    (∃ fh fp,
      BedrockLLM.headersWith
          (⟨"G", none, some "h", some "/", "", "r", "s", "a", "k"⟩ : BedrockLLM.Params)
          ⟨2013, 5, 24, 0, 0, 0, 0⟩ "h" "/" =
        BedrockLLM.headersWith
          (⟨"G", none, some "h", some "/", "", "r", "s", "a", "k"⟩ : BedrockLLM.Params)
          ⟨2013, 5, 24, 0, 0, 0, 0⟩ fh fp ∧
      List.lookup "Authorization"
          (BedrockLLM.headersWith
            (⟨"G", none, some "h", some "/", "", "r", "s", "a", "k"⟩ : BedrockLLM.Params)
            ⟨2013, 5, 24, 0, 0, 0, 0⟩ "h" "/") =
        some (BedrockLLM.authorizationHeader
          (⟨"G", none, some "h", some "/", "", "r", "s", "a", "k"⟩ : BedrockLLM.Params)
          ⟨2013, 5, 24, 0, 0, 0, 0⟩ fh fp) ∧
      BedrockLLM.authorizationHeader
          (⟨"G", none, some "h", some "/", "", "r", "s", "a", "k"⟩ : BedrockLLM.Params)
          ⟨2013, 5, 24, 0, 0, 0, 0⟩ fh fp =
        "AWS4-HMAC-SHA256 Credential=" ++ "a" ++ "/" ++
          BedrockLLM.credentialScope (SigV4.dateStampOf ⟨2013, 5, 24, 0, 0, 0, 0⟩) "r" "s" ++
          ", SignedHeaders=" ++ BedrockLLM.signedHeaders ++ ", Signature=" ++
          BedrockLLM.signatureHex
            (⟨"G", none, some "h", some "/", "", "r", "s", "a", "k"⟩ : BedrockLLM.Params)
            ⟨2013, 5, 24, 0, 0, 0, 0⟩ fh fp ∧
      (BedrockLLM.signatureHex
          (⟨"G", none, some "h", some "/", "", "r", "s", "a", "k"⟩ : BedrockLLM.Params)
          ⟨2013, 5, 24, 0, 0, 0, 0⟩ fh fp).length = 64 ∧
      ∀ c ∈ (BedrockLLM.signatureHex
          (⟨"G", none, some "h", some "/", "", "r", "s", "a", "k"⟩ : BedrockLLM.Params)
          ⟨2013, 5, 24, 0, 0, 0, 0⟩ fh fp).data, SigV4.isHexLower c = true) :=
  ⟨rfl, c10_theorem _ _ _ rfl⟩
